import Mathlib

/-
Verification of the croc fluent HTTP request builder (croc.go).

The builder state (CrocClient) and all its chainable operations are
embedded as pure Lean functions over an explicit state record.  The two
external collaborators — the URL parser (net/url's Parse, used by Proxy
and by http.NewRequest inside makeRequest) and the HTTP transport
(http.Client.Do plus the body read) — are modelled as an abstract Oracle
record, exactly mirroring how the specification treats them as opaque
collaborators.  Go's http.Header is embedded as an association list from
canonical MIME header key to the ordered list of values, with the
canonicalisation function translated from net/textproto's
CanonicalMIMEHeaderKey.  The standard-library calls req.SetBasicAuth and
req.AddCookie are abstracted as recording the credentials / appending the
cookie on the assembled request object.
-/

namespace Croc

/-- Translation of net/textproto's validHeaderFieldByte (the isTokenTable):
the RFC 7230 token characters. -/
def validHeaderFieldChar (c : Char) : Bool :=
  let n := c.toNat
  n = 33 || n = 35 || n = 36 || n = 37 || n = 38 || n = 39 ||
  n = 42 || n = 43 || n = 45 || n = 46 ||
  (48 ≤ n && n ≤ 57) || (65 ≤ n && n ≤ 90) ||
  (94 ≤ n && n ≤ 96) || (97 ≤ n && n ≤ 122) || n = 124 || n = 126

/-- One step of canonicalisation: uppercase a letter at the start or after
a hyphen, lowercase it otherwise (net/textproto canonicalMIMEHeaderKey). -/
def canonChar (upper : Bool) (c : Char) : Char :=
  if upper && 97 ≤ c.toNat && c.toNat ≤ 122 then Char.ofNat (c.toNat - 32)
  else if !upper && 65 ≤ c.toNat && c.toNat ≤ 90 then Char.ofNat (c.toNat + 32)
  else c

/-- Canonicalise a list of characters, tracking whether the next letter
should be uppercased (true at the start and right after a hyphen). -/
def canonList : Bool → List Char → List Char
  | _, [] => []
  | upper, c :: rest =>
    let c' := canonChar upper c
    c' :: canonList (c'.toNat = 45) rest

/-- net/textproto CanonicalMIMEHeaderKey: keys containing an invalid byte
are returned unchanged; otherwise letters are canonicalised. -/
def canonKey (s : String) : String :=
  if s.data.all validHeaderFieldChar then String.mk (canonList true s.data) else s

/-- Go's http.Header: a map from canonical key to ordered value list,
embedded as an association list with pairwise distinct keys. -/
abbrev HeaderMap := List (String × List String)

/-- Raw map lookup: the value list stored under exactly this key
(empty when the key is absent, like indexing a Go map). -/
def lookupH : HeaderMap → String → List String
  | [], _ => []
  | (k, vs) :: rest, key => if k = key then vs else lookupH rest key

/-- Raw map assignment m[key] = vs. -/
def setRaw : HeaderMap → String → List String → HeaderMap
  | [], key, vs => [(key, vs)]
  | (k, ws) :: rest, key, vs =>
    if k = key then (key, vs) :: rest else (k, ws) :: setRaw rest key vs

/-- textproto MIMEHeader.Set: replace all values under the canonical key. -/
def headerSet (h : HeaderMap) (key value : String) : HeaderMap :=
  setRaw h (canonKey key) [value]

/-- textproto MIMEHeader.Add: append a value under the canonical key. -/
def headerAdd (h : HeaderMap) (key value : String) : HeaderMap :=
  let ck := canonKey key
  setRaw h ck (lookupH h ck ++ [value])

/-- http.Header.Values: the value list observed for a key (canonicalised
lookup). -/
def headerValues (h : HeaderMap) (key : String) : List String :=
  lookupH h (canonKey key)

structure BasicAuth where
  username : String
  password : String
deriving DecidableEq, Repr

/-- An http.Cookie, abstracted to the fields the builder ever inspects
(it only stores and forwards cookies). -/
structure Cookie where
  name : String
  value : String
deriving DecidableEq, Repr

/-- An already-parsed url.URL, kept opaque: the builder never inspects it,
it only stores it and hands it to the transport. -/
structure ParsedURL where
  raw : String
deriving DecidableEq, Repr

/-- Go error values that can reach the builder, tagged by provenance. -/
inductive Err where
  | config (msg : String)
  | parse (msg : String)
  | transport (msg : String)
  | read (msg : String)
deriving DecidableEq, Repr

/-- The assembled *http.Request, restricted to what makeRequest puts on
it: method, url, copied headers, body bytes, the basic-auth credentials
applied via req.SetBasicAuth (if any), and the cookies attached via
req.AddCookie. -/
structure ModelRequest where
  method : String
  url : String
  header : HeaderMap
  body : List Nat
  auth : Option BasicAuth
  cookies : List Cookie
deriving DecidableEq, Repr

/-- Outcome of io.ReadAll on a response body stream. -/
inductive ReadResult where
  | fail (e : String)
  | ok (bytes : List Nat)
deriving DecidableEq, Repr

/-- An *http.Response: status, headers, content length, and the body
stream together with what reading it yields. -/
structure ModelResponse where
  statusCode : Int
  header : HeaderMap
  contentLength : Int
  bodyStream : ReadResult
deriving DecidableEq, Repr

/-- Outcome of url.Parse. -/
inductive ParseResult where
  | fail (e : String)
  | ok (u : ParsedURL)
deriving DecidableEq, Repr

/-- Outcome of http.Client.Do. -/
inductive SendResult where
  | fail (e : String)
  | ok (resp : ModelResponse)
deriving DecidableEq, Repr

/-- The external collaborators: url.Parse and the transport send.  The
transport receives the proxy installed on it (transport.Proxy) alongside
the request. -/
structure Oracle where
  parseURL : String → ParseResult
  send : Option ParsedURL → ModelRequest → SendResult

/-- The CrocClient builder state.  The *http.Client and *http.Transport
owned by the builder are represented by the one piece of their state the
code ever writes: the proxy currently installed on the transport. -/
structure CrocClient where
  url : String
  method : String
  headers : HeaderMap
  cookies : List Cookie
  basicAuth : BasicAuth
  rawBody : List Nat
  proxy : Option ParsedURL
  transportProxy : Option ParsedURL
  err : Option Err
  lastRequest : Option ModelRequest
  lastResponse : Option ModelResponse
  respStatusCode : Int
  respHeaders : HeaderMap
  rawRespBody : List Nat
  contentLength : Int
deriving DecidableEq, Repr

/-- croc.New(): fresh builder; the fresh http.Transport has a nil Proxy. -/
def New : CrocClient where
  url := ""
  method := ""
  headers := []
  cookies := []
  basicAuth := ⟨"", ""⟩
  rawBody := []
  proxy := none
  transportProxy := none
  err := none
  lastRequest := none
  lastResponse := none
  respStatusCode := 0
  respHeaders := []
  rawRespBody := []
  contentLength := 0

/-- Accessor Error(). -/
def Error (cc : CrocClient) : Option Err := cc.err

/-- ClearRequestData(): resets url, method, headers, basicAuth, rawBody;
does not touch cookies or proxy. -/
def ClearRequestData (cc : CrocClient) : CrocClient :=
  { cc with url := "", method := "", headers := [], basicAuth := ⟨"", ""⟩, rawBody := [] }

/-- ClearCookies(): empties the pending per-request cookie list. -/
def ClearCookies (cc : CrocClient) : CrocClient :=
  { cc with cookies := [] }

/-- ClearProxy(): unsets the stored proxy resolver. -/
def ClearProxy (cc : CrocClient) : CrocClient :=
  { cc with proxy := none }

def Get (cc : CrocClient) (targetUrl : String) : CrocClient :=
  { ClearRequestData cc with method := "GET", url := targetUrl, err := none }

def Post (cc : CrocClient) (targetUrl : String) : CrocClient :=
  { ClearRequestData cc with method := "POST", url := targetUrl, err := none }

def Put (cc : CrocClient) (targetUrl : String) : CrocClient :=
  { ClearRequestData cc with method := "PUT", url := targetUrl, err := none }

def Delete (cc : CrocClient) (targetUrl : String) : CrocClient :=
  { ClearRequestData cc with method := "DELETE", url := targetUrl, err := none }

def Head (cc : CrocClient) (targetUrl : String) : CrocClient :=
  { ClearRequestData cc with method := "HEAD", url := targetUrl, err := none }

def Patch (cc : CrocClient) (targetUrl : String) : CrocClient :=
  { ClearRequestData cc with method := "PATCH", url := targetUrl, err := none }

def Options (cc : CrocClient) (targetUrl : String) : CrocClient :=
  { ClearRequestData cc with method := "OPTIONS", url := targetUrl, err := none }

/-- AddCookies(): appends to the pending per-request cookie list. -/
def AddCookies (cc : CrocClient) (cks : List Cookie) : CrocClient :=
  { cc with cookies := cc.cookies ++ cks }

/-- SetHeader(): headers.Set — unconditional, no sticky-error guard. -/
def SetHeader (cc : CrocClient) (key value : String) : CrocClient :=
  { cc with headers := headerSet cc.headers key value }

/-- AppendHeader(): headers.Add — unconditional, no sticky-error guard. -/
def AppendHeader (cc : CrocClient) (key value : String) : CrocClient :=
  { cc with headers := headerAdd cc.headers key value }

/-- SetBasicAuth(): stores the credentials. -/
def SetBasicAuth (cc : CrocClient) (username password : String) : CrocClient :=
  { cc with basicAuth := ⟨username, password⟩ }

/-- Proxy(): parse the url; on failure overwrite cc.err (unconditionally)
and leave cc.proxy alone; on success store the fixed-URL resolver
http.ProxyURL(parsedUrl), leaving cc.err alone. -/
def Proxy (o : Oracle) (cc : CrocClient) (proxyUrl : String) : CrocClient :=
  match o.parseURL proxyUrl with
  | .fail e => { cc with err := some (.parse e) }
  | .ok u => { cc with proxy := some u }

/-- Payload(): stores the raw body bytes verbatim. -/
def Payload (cc : CrocClient) (data : List Nat) : CrocClient :=
  { cc with rawBody := data }

/-- http.NewRequest's method validation (net/http validMethod): nonempty
and made of token characters. -/
def validMethod (m : String) : Bool :=
  !m.isEmpty && m.data.all validHeaderFieldChar

/-- The header-copy loop of makeRequest: for each stored key, add each of
its values onto the (initially empty) request header via Header.Add. -/
def copyHeaders (h : HeaderMap) : HeaderMap :=
  h.foldl (fun acc kv => kv.2.foldl (fun a v => headerAdd a kv.1 v) acc) []

/-- Outcome of makeRequest. -/
inductive MakeResult where
  | fail (e : Err)
  | ok (req : ModelRequest)
deriving DecidableEq, Repr

/-- makeRequest(): the two emptiness checks, then http.NewRequest (method
validation and url parse), then the header copy, conditional SetBasicAuth
against the zero value, and cookie attachment. -/
def makeRequest (o : Oracle) (cc : CrocClient) : MakeResult :=
  if cc.method = "" then .fail (.config ("no method specified"))
  else if cc.url = "" then .fail (.config ("no url specified"))
  else if !validMethod cc.method then
    .fail (.parse ("net/http: invalid method " ++ cc.method))
  else
    match o.parseURL cc.url with
    | .fail e => .fail (.parse e)
    | .ok _ =>
      .ok { method := cc.method, url := cc.url, header := copyHeaders cc.headers,
            body := cc.rawBody,
            auth := if cc.basicAuth ≠ (⟨"", ""⟩ : BasicAuth) then some cc.basicAuth else none,
            cookies := cc.cookies }

/-- Result of End(): the builder state after the call, the returned error,
and how many times the transport was invoked. -/
structure EndResult where
  state : CrocClient
  ret : Option Err
  transportCalls : Nat
deriving DecidableEq, Repr

/-- End(): sticky-error short circuit; assemble; record lastRequest;
install the proxy on the transport; send; record lastResponse; read the
body; on full success update the response snapshot. -/
def End (o : Oracle) (cc : CrocClient) : EndResult :=
  match cc.err with
  | some e => ⟨cc, some e, 0⟩
  | none =>
    match makeRequest o cc with
    | .fail e => ⟨{ cc with err := some e }, some e, 0⟩
    | .ok req =>
      let cc1 := { cc with lastRequest := some req, transportProxy := cc.proxy }
      match o.send cc1.proxy req with
      | .fail e => ⟨{ cc1 with err := some (.transport e) }, some (.transport e), 1⟩
      | .ok resp =>
        let cc2 := { cc1 with lastResponse := some resp }
        match resp.bodyStream with
        | .fail e => ⟨{ cc2 with err := some (.read e) }, some (.read e), 1⟩
        | .ok body =>
          let cc3 := { cc2 with rawRespBody := body, respStatusCode := resp.statusCode, respHeaders := resp.header, contentLength := resp.contentLength }
          ⟨cc3, none, 1⟩

/-- Accessor Request(). -/
def Request (cc : CrocClient) : Option ModelRequest := cc.lastRequest

/-- Accessor Response(). -/
def Response (cc : CrocClient) : Option ModelResponse := cc.lastResponse

/-- Accessor RespStatus(). -/
def RespStatus (cc : CrocClient) : Int := cc.respStatusCode

/-- Accessor RespHeaders(). -/
def RespHeaders (cc : CrocClient) : HeaderMap := cc.respHeaders

/-- Accessor RespLength(). -/
def RespLength (cc : CrocClient) : Int := cc.contentLength

/-- Accessor RawRespBody(). -/
def RawRespBody (cc : CrocClient) : List Nat := cc.rawRespBody

/-- Result of Do(): the builder state after the call (Do writes only the
transport's proxy), the returned response, body bytes, and error. -/
structure DoResult where
  state : CrocClient
  resp : Option ModelResponse
  body : Option (List Nat)
  err : Option Err
deriving DecidableEq, Repr

/-- Do(): install the configured proxy on the transport, send the given
request, read the body; never touches the stored request/response/error
or snapshot fields. -/
def Do (o : Oracle) (cc : CrocClient) (req : ModelRequest) : DoResult :=
  let cc1 := { cc with transportProxy := cc.proxy }
  match o.send cc.proxy req with
  | .fail e => ⟨cc1, none, none, some (.transport e)⟩
  | .ok resp =>
    match resp.bodyStream with
    | .fail e => ⟨cc1, some resp, none, some (.read e)⟩
    | .ok body => ⟨cc1, some resp, some body, none⟩

/-- The four response-snapshot fields of a builder, bundled. -/
def snapshot (cc : CrocClient) : Int × HeaderMap × List Nat × Int :=
  (cc.respStatusCode, cc.respHeaders, cc.rawRespBody, cc.contentLength)

/-- Add every value of a list under one key (the inner loop of the
makeRequest header copy). -/
def addAll (acc : HeaderMap) (k : String) (vs : List String) : HeaderMap :=
  vs.foldl (fun a v => headerAdd a k v) acc

/-- A chain of AppendHeader calls on the builder, one per value. -/
def appendMany (cc : CrocClient) (k : String) (vs : List String) : CrocClient :=
  vs.foldl (fun s v => AppendHeader s k v) cc

/-- The representation invariant of the embedded http.Header: every stored
key is canonical and keys are pairwise distinct (it is a map).  It holds
for the empty header and is preserved by Set and Add. -/
def WFHeader (h : HeaderMap) : Prop :=
  (∀ p ∈ h, canonKey p.1 = p.1) ∧ (h.map Prod.fst).Nodup

/-- Whether an error is a configuration error (missing method / missing
url), as opposed to a parse, transport or read error. -/
def Err.isConfig : Err → Bool
  | .config _ => true
  | _ => false

/-- The configuration error makeRequest reports for a state with an empty
method or an empty url (method is checked first). -/
def configErrOf (cc : CrocClient) : Err :=
  if cc.method = "" then .config ("no method specified") else .config ("no url specified")

/-- What a method-selection call with verb m and target u must do to the
builder: reset the method-scoped state, set method and url, clear the
sticky error, preserve cookies and proxy, and carry the preserved cookies
onto the next assembled request. -/
def methodReset (o : Oracle) (cc cc' : CrocClient) (m u : String) : Prop :=
  cc'.method = m ∧ cc'.url = u ∧ cc'.headers = [] ∧
  cc'.basicAuth = (⟨"", ""⟩ : BasicAuth) ∧ cc'.rawBody = [] ∧ cc'.err = none ∧
  cc'.cookies = cc.cookies ∧ cc'.proxy = cc.proxy ∧
  (∀ req, makeRequest o cc' = .ok req → req.cookies = cc.cookies)

/-- A transport stub for witnesses: every url parses, every send succeeds
with status 200 and a fully readable three-byte body. -/
def oracleOK : Oracle where
  parseURL := fun s => .ok ⟨s⟩
  send := fun _ _ => .ok ⟨200, [], 3, .ok [97, 98, 99]⟩

/-- A transport stub for witnesses: every url parses, every send fails. -/
def oracleSendFail : Oracle where
  parseURL := fun s => .ok ⟨s⟩
  send := fun _ _ => .fail ("connection refused")

/-- A transport stub for witnesses: sends succeed but the response body
stream fails mid-read. -/
def oracleReadFail : Oracle where
  parseURL := fun s => .ok ⟨s⟩
  send := fun _ _ => .ok ⟨200, [], -1, .fail ("unexpected EOF")⟩

/-- A url-parser stub for witnesses: two distinct malformed urls fail with
two distinct parse errors, everything else parses; sends fail. -/
def oracleParseFail : Oracle where
  parseURL := fun s =>
    if s = "bad1" then .fail ("e1") else if s = "bad2" then .fail ("e2") else .ok ⟨s⟩
  send := fun _ _ => .fail ("down")

/-- A concrete assembled request used by witnesses: what makeRequest
builds from a fresh builder after Get("http://x"). -/
def reqW : ModelRequest where
  method := "GET"
  url := "http://x"
  header := []
  body := []
  auth := none
  cookies := []

theorem toNat_ofNat_lt (n : Nat) (h : n < 55296) : (Char.ofNat n).toNat = n := by
  have hv : n.isValidChar := Or.inl h
  rw [Char.ofNat, dif_pos hv]
  rfl

theorem canonChar_true (c : Char) :
    canonChar true c = if 97 ≤ c.toNat ∧ c.toNat ≤ 122 then Char.ofNat (c.toNat - 32) else c := by
  unfold canonChar
  by_cases h1 : 97 ≤ c.toNat <;> by_cases h2 : c.toNat ≤ 122 <;> simp [h1, h2]

theorem canonChar_false (c : Char) :
    canonChar false c = if 65 ≤ c.toNat ∧ c.toNat ≤ 90 then Char.ofNat (c.toNat + 32) else c := by
  unfold canonChar
  by_cases h1 : 65 ≤ c.toNat <;> by_cases h2 : c.toNat ≤ 90 <;> simp [h1, h2]

theorem toNat_canonChar_true (c : Char) :
    (canonChar true c).toNat = if 97 ≤ c.toNat ∧ c.toNat ≤ 122 then c.toNat - 32 else c.toNat := by
  rw [canonChar_true]
  split
  · next h => exact toNat_ofNat_lt _ (by omega)
  · rfl

theorem toNat_canonChar_false (c : Char) :
    (canonChar false c).toNat = if 65 ≤ c.toNat ∧ c.toNat ≤ 90 then c.toNat + 32 else c.toNat := by
  rw [canonChar_false]
  split
  · next h => exact toNat_ofNat_lt _ (by omega)
  · rfl

theorem canonChar_idem (b : Bool) (c : Char) : canonChar b (canonChar b c) = canonChar b c := by
  cases b
  · rw [canonChar_false (canonChar false c), toNat_canonChar_false c]
    by_cases h : 65 ≤ c.toNat ∧ c.toNat ≤ 90
    · simp only [if_pos h]
      rw [if_neg (by omega)]
    · simp only [if_neg h]
  · rw [canonChar_true (canonChar true c), toNat_canonChar_true c]
    by_cases h : 97 ≤ c.toNat ∧ c.toNat ≤ 122
    · simp only [if_pos h]
      rw [if_neg (by omega)]
    · simp only [if_neg h]

theorem valid_iff (c : Char) : validHeaderFieldChar c = true ↔
    (c.toNat = 33 ∨ c.toNat = 35 ∨ c.toNat = 36 ∨ c.toNat = 37 ∨ c.toNat = 38 ∨ c.toNat = 39 ∨
     c.toNat = 42 ∨ c.toNat = 43 ∨ c.toNat = 45 ∨ c.toNat = 46 ∨
     (48 ≤ c.toNat ∧ c.toNat ≤ 57) ∨ (65 ≤ c.toNat ∧ c.toNat ≤ 90) ∨
     (94 ≤ c.toNat ∧ c.toNat ≤ 96) ∨ (97 ≤ c.toNat ∧ c.toNat ≤ 122) ∨
     c.toNat = 124 ∨ c.toNat = 126) := by
  simp only [validHeaderFieldChar, Bool.or_eq_true, Bool.and_eq_true, decide_eq_true_eq]
  omega

theorem valid_canonChar (b : Bool) (c : Char) :
    validHeaderFieldChar (canonChar b c) = validHeaderFieldChar c := by
  cases b
  · rw [canonChar_false]
    by_cases h : 65 ≤ c.toNat ∧ c.toNat ≤ 90
    · rw [if_pos h]
      have ht := toNat_ofNat_lt (c.toNat + 32) (by omega)
      have h1 : validHeaderFieldChar (Char.ofNat (c.toNat + 32)) = true := by
        rw [valid_iff, ht]; omega
      have h2 : validHeaderFieldChar c = true := by
        rw [valid_iff]; omega
      rw [h1, h2]
    · rw [if_neg h]
  · rw [canonChar_true]
    by_cases h : 97 ≤ c.toNat ∧ c.toNat ≤ 122
    · rw [if_pos h]
      have ht := toNat_ofNat_lt (c.toNat - 32) (by omega)
      have h1 : validHeaderFieldChar (Char.ofNat (c.toNat - 32)) = true := by
        rw [valid_iff, ht]; omega
      have h2 : validHeaderFieldChar c = true := by
        rw [valid_iff]; omega
      rw [h1, h2]
    · rw [if_neg h]

theorem all_valid_canonList (b : Bool) (l : List Char) :
    (canonList b l).all validHeaderFieldChar = l.all validHeaderFieldChar := by
  induction l generalizing b with
  | nil => rfl
  | cons c rest ih => simp [canonList, valid_canonChar, ih]

theorem canonList_idem (b : Bool) (l : List Char) :
    canonList b (canonList b l) = canonList b l := by
  induction l generalizing b with
  | nil => rfl
  | cons c rest ih =>
    simp only [canonList]
    rw [canonChar_idem, ih]

theorem canonKey_idem (s : String) : canonKey (canonKey s) = canonKey s := by
  unfold canonKey
  by_cases h : s.data.all validHeaderFieldChar = true
  · rw [if_pos h]
    have hd : (String.mk (canonList true s.data)).data = canonList true s.data := rfl
    rw [hd]
    rw [all_valid_canonList, if_pos h, canonList_idem]
  · rw [if_neg h, if_neg h]

theorem lookup_setRaw (h : HeaderMap) (key : String) (vs : List String) (k' : String) :
    lookupH (setRaw h key vs) k' = if key = k' then vs else lookupH h k' := by
  induction h with
  | nil => simp [setRaw, lookupH]
  | cons p rest ih =>
    obtain ⟨k, ws⟩ := p
    by_cases hk : k = key <;> by_cases hk' : key = k' <;> by_cases hkk : k = k' <;>
      simp_all [setRaw, lookupH]

theorem lookup_eq_nil_of_not_mem (h : HeaderMap) (k : String)
    (hk : k ∉ h.map Prod.fst) : lookupH h k = [] := by
  induction h with
  | nil => rfl
  | cons p rest ih =>
    obtain ⟨k1, vs⟩ := p
    simp only [List.map_cons, List.mem_cons] at hk
    push_neg at hk
    simp only [lookupH]
    rw [if_neg (fun hh => hk.1 hh.symm)]
    exact ih hk.2

theorem mem_setRaw (h : HeaderMap) (key : String) (vs : List String)
    (p : String × List String) (hp : p ∈ setRaw h key vs) : p ∈ h ∨ p = (key, vs) := by
  induction h with
  | nil =>
    simp only [setRaw, List.mem_singleton] at hp
    right; exact hp
  | cons q rest ih =>
    obtain ⟨k, ws⟩ := q
    simp only [setRaw] at hp
    by_cases hk : k = key
    · rw [if_pos hk] at hp
      rcases List.mem_cons.mp hp with h1 | h1
      · right; exact h1
      · left; exact List.mem_cons_of_mem _ h1
    · rw [if_neg hk] at hp
      rcases List.mem_cons.mp hp with h1 | h1
      · left; exact h1 ▸ List.mem_cons_self _ _
      · rcases ih h1 with h2 | h2
        · left; exact List.mem_cons_of_mem _ h2
        · right; exact h2

theorem keys_setRaw (h : HeaderMap) (key : String) (vs : List String) :
    (setRaw h key vs).map Prod.fst =
      if key ∈ h.map Prod.fst then h.map Prod.fst else h.map Prod.fst ++ [key] := by
  induction h with
  | nil => simp [setRaw]
  | cons q rest ih =>
    obtain ⟨k, ws⟩ := q
    by_cases hk : k = key
    · subst hk
      simp [setRaw]
    · simp only [setRaw, if_neg hk, List.map_cons, ih]
      by_cases hmem : key ∈ rest.map Prod.fst
      · simp [hmem, Ne.symm hk]
      · simp [hmem, Ne.symm hk]

theorem WFHeader_nil : WFHeader [] :=
  ⟨fun p hp => absurd hp (List.not_mem_nil p), List.nodup_nil⟩

theorem WF_setRaw (h : HeaderMap) (key : String) (vs : List String)
    (hw : WFHeader h) (hck : canonKey key = key) : WFHeader (setRaw h key vs) := by
  constructor
  · intro p hp
    rcases mem_setRaw h key vs p hp with h1 | h1
    · exact hw.1 p h1
    · rw [h1]; exact hck
  · rw [keys_setRaw]
    split
    · exact hw.2
    · next hmem => simp [List.nodup_append, hw.2, hmem]

theorem WF_headerSet (h : HeaderMap) (k v : String) (hw : WFHeader h) :
    WFHeader (headerSet h k v) := by
  unfold headerSet
  exact WF_setRaw _ _ _ hw (canonKey_idem k)

theorem WF_headerAdd (h : HeaderMap) (k v : String) (hw : WFHeader h) :
    WFHeader (headerAdd h k v) := by
  unfold headerAdd
  exact WF_setRaw _ _ _ hw (canonKey_idem k)

theorem WF_addAll (h : HeaderMap) (k : String) (vs : List String) (hw : WFHeader h) :
    WFHeader (addAll h k vs) := by
  induction vs generalizing h with
  | nil => exact hw
  | cons v vs ih =>
    simp only [addAll, List.foldl_cons]
    exact ih _ (WF_headerAdd _ _ _ hw)

theorem lookup_headerAdd (h : HeaderMap) (k v : String) (k' : String) :
    lookupH (headerAdd h k v) k' =
      if canonKey k = k' then lookupH h k' ++ [v] else lookupH h k' := by
  unfold headerAdd
  rw [lookup_setRaw]
  split
  · next heq => rw [heq]
  · rfl

theorem lookup_addAll (acc : HeaderMap) (k : String) (vs : List String) (k' : String) :
    lookupH (addAll acc k vs) k' =
      if canonKey k = k' then lookupH acc k' ++ vs else lookupH acc k' := by
  induction vs generalizing acc with
  | nil => simp [addAll]
  | cons v vs ih =>
    simp only [addAll, List.foldl_cons]
    have h1 : vs.foldl (fun a w => headerAdd a k w) (headerAdd acc k v) =
        addAll (headerAdd acc k v) k vs := rfl
    rw [h1, ih]
    simp only [lookup_headerAdd]
    by_cases hck : canonKey k = k'
    · simp [hck]
    · simp [hck]

theorem lookup_copy_fold (h : HeaderMap) :
    ∀ (acc : HeaderMap) (k' : String),
      (∀ p ∈ h, canonKey p.1 = p.1) → (h.map Prod.fst).Nodup →
      lookupH (h.foldl (fun acc kv => kv.2.foldl (fun a v => headerAdd a kv.1 v) acc) acc) k' =
        lookupH acc k' ++ lookupH h k' := by
  induction h with
  | nil =>
    intro acc k' _ _
    simp [lookupH]
  | cons q rest ih =>
    intro acc k' hcanon hnodup
    obtain ⟨k, vs⟩ := q
    simp only [List.foldl_cons]
    have hcanon' : ∀ p ∈ rest, canonKey p.1 = p.1 :=
      fun p hp => hcanon p (List.mem_cons_of_mem _ hp)
    have hnodup' : (rest.map Prod.fst).Nodup := by
      simp only [List.map_cons, List.nodup_cons] at hnodup
      exact hnodup.2
    have hknotin : k ∉ rest.map Prod.fst := by
      simp only [List.map_cons, List.nodup_cons] at hnodup
      exact hnodup.1
    rw [ih _ k' hcanon' hnodup']
    have hstep : vs.foldl (fun a v => headerAdd a k v) acc = addAll acc k vs := rfl
    rw [hstep, lookup_addAll]
    have hk : canonKey k = k := hcanon (k, vs) (List.mem_cons_self _ _)
    rw [hk]
    by_cases hkk : k = k'
    · subst hkk
      rw [if_pos rfl, lookup_eq_nil_of_not_mem rest k hknotin]
      simp [lookupH]
    · rw [if_neg hkk]
      simp [lookupH, hkk]

theorem lookup_copyHeaders (h : HeaderMap) (hw : WFHeader h) (k' : String) :
    lookupH (copyHeaders h) k' = lookupH h k' := by
  have hc := lookup_copy_fold h [] k' hw.1 hw.2
  simpa [copyHeaders, lookupH] using hc

theorem appendMany_eq (cc : CrocClient) (k : String) (vs : List String) :
    appendMany cc k vs = { cc with headers := addAll cc.headers k vs } := by
  induction vs generalizing cc with
  | nil => rfl
  | cons v vs ih =>
    have h1 : appendMany cc k (v :: vs) = appendMany (AppendHeader cc k v) k vs := rfl
    rw [h1, ih]
    rfl

theorem makeRequest_ok_eq (o : Oracle) (cc : CrocClient) (req : ModelRequest)
    (h : makeRequest o cc = .ok req) :
    req = { method := cc.method, url := cc.url, header := copyHeaders cc.headers,
            body := cc.rawBody,
            auth := if cc.basicAuth ≠ (⟨"", ""⟩ : BasicAuth) then some cc.basicAuth else none,
            cookies := cc.cookies } := by
  unfold makeRequest at h
  split at h
  · exact MakeResult.noConfusion h
  · split at h
    · exact MakeResult.noConfusion h
    · split at h
      · exact MakeResult.noConfusion h
      · split at h
        · exact MakeResult.noConfusion h
        · cases h
          rfl

theorem End_sticky (o : Oracle) (cc : CrocClient) (e : Err) (h : cc.err = some e) :
    End o cc = ⟨cc, some e, 0⟩ := by
  unfold End
  rw [h]

theorem End_makeFail (o : Oracle) (cc : CrocClient) (e : Err)
    (h0 : cc.err = none) (h1 : makeRequest o cc = .fail e) :
    End o cc = ⟨{ cc with err := some e }, some e, 0⟩ := by
  unfold End
  rw [h0, h1]

theorem End_sendFail (o : Oracle) (cc : CrocClient) (req : ModelRequest) (e : String)
    (h0 : cc.err = none) (h1 : makeRequest o cc = .ok req)
    (h2 : o.send cc.proxy req = .fail e) :
    End o cc = ⟨{ cc with lastRequest := some req, transportProxy := cc.proxy, err := some (.transport e) }, some (.transport e), 1⟩ := by
  unfold End
  rw [h0, h1]
  simp only [h2]

theorem End_readFail (o : Oracle) (cc : CrocClient) (req : ModelRequest)
    (resp : ModelResponse) (e : String)
    (h0 : cc.err = none) (h1 : makeRequest o cc = .ok req)
    (h2 : o.send cc.proxy req = .ok resp) (h3 : resp.bodyStream = .fail e) :
    End o cc = ⟨{ cc with lastRequest := some req, transportProxy := cc.proxy, lastResponse := some resp, err := some (.read e) }, some (.read e), 1⟩ := by
  unfold End
  rw [h0, h1]
  simp only [h2, h3]

theorem End_success (o : Oracle) (cc : CrocClient) (req : ModelRequest)
    (resp : ModelResponse) (body : List Nat)
    (h0 : cc.err = none) (h1 : makeRequest o cc = .ok req)
    (h2 : o.send cc.proxy req = .ok resp) (h3 : resp.bodyStream = .ok body) :
    End o cc = ⟨{ cc with lastRequest := some req, transportProxy := cc.proxy, lastResponse := some resp, rawRespBody := body, respStatusCode := resp.statusCode, respHeaders := resp.header, contentLength := resp.contentLength }, none, 1⟩ := by
  unfold End
  rw [h0, h1]
  simp only [h2, h3]

/-- C1: if a sticky error is pending, End() returns that same error
immediately, invoking the transport zero times and changing no builder
state; in particular a Proxy call whose url fails to parse sets the
sticky error and leaves the proxy resolver unset, and the following
End() returns exactly that parse error. -/
theorem claim_C1 (o : Oracle) (cc : CrocClient) (e : Err) (p msg : String) :
    (cc.err = some e → End o cc = ⟨cc, some e, 0⟩) ∧
    (o.parseURL p = .fail msg →
      (Proxy o cc p).err = some (.parse msg) ∧
      (cc.proxy = none → (Proxy o cc p).proxy = none) ∧
      End o (Proxy o cc p) = ⟨Proxy o cc p, some (.parse msg), 0⟩) := by
  constructor
  · intro h
    exact End_sticky o cc e h
  · intro hp
    have hpe : Proxy o cc p = { cc with err := some (.parse msg) } := by
      unfold Proxy
      rw [hp]
    refine ⟨by rw [hpe], ?_, ?_⟩
    · intro hnone
      rw [hpe]
      exact hnone
    · exact End_sticky o _ _ (by rw [hpe])

/-- C1 witness: a failing Proxy call on a fresh builder, then End(). -/
theorem claim_C1_witness :
    (Proxy oracleParseFail New ("bad1")).err = some (.parse ("e1")) ∧
    (Proxy oracleParseFail New ("bad1")).proxy = none ∧
    End oracleParseFail (Proxy oracleParseFail New ("bad1")) =
      ⟨Proxy oracleParseFail New ("bad1"), some (.parse ("e1")), 0⟩ := by
  have h := (claim_C1 oracleParseFail New (Err.parse ("e1")) ("bad1") ("e1")).2 rfl
  exact ⟨h.1, h.2.1 rfl, h.2.2⟩

/-- C2 (amended): End() with no pending error and an empty method or url
fails in assembly with a configuration error, stores it as the sticky
error and returns it — but it leaves lastRequest unchanged (it does NOT
store nil), and leaves lastResponse and the response snapshot unchanged. -/
theorem claim_C2_amended (o : Oracle) (cc : CrocClient)
    (hno : cc.err = none) (hmu : cc.method = "" ∨ cc.url = "") :
    (configErrOf cc).isConfig = true ∧
    End o cc = ⟨{ cc with err := some (configErrOf cc) }, some (configErrOf cc), 0⟩ := by
  have hmk : makeRequest o cc = .fail (configErrOf cc) := by
    unfold makeRequest configErrOf
    by_cases hm : cc.method = ""
    · rw [if_pos hm, if_pos hm]
    · rw [if_neg hm, if_neg hm]
      have hu : cc.url = "" := hmu.resolve_left hm
      rw [if_pos hu]
  constructor
  · unfold configErrOf
    by_cases hm : cc.method = "" <;> simp [hm, Err.isConfig]
  · exact End_makeFail o cc _ hno hmk

/-- C2 counterexample: after a successful execution, ClearRequestData()
then End() fails assembly, yet lastRequest still holds the previous
request instance — the claim says it is stored as nil/absent. -/
theorem claim_C2_counterexample :
    (ClearRequestData (End oracleOK (Get New ("http://x"))).state).err = none ∧
    (ClearRequestData (End oracleOK (Get New ("http://x"))).state).method = "" ∧
    (End oracleOK (ClearRequestData (End oracleOK (Get New ("http://x"))).state)).ret =
      some (.config ("no method specified")) ∧
    (End oracleOK (ClearRequestData (End oracleOK (Get New ("http://x"))).state)).state.lastRequest.isSome = true :=
  ⟨rfl, rfl, rfl, rfl⟩

/-- C2 witness: a fresh builder has no method, so End() fails with the
missing-method configuration error stored as sticky. -/
theorem claim_C2_witness :
    New.err = none ∧ (New.method = "" ∨ New.url = "") ∧
    End oracleOK New = ⟨{ New with err := some (.config ("no method specified")) }, some (.config ("no method specified")), 0⟩ := by
  refine ⟨rfl, Or.inl rfl, ?_⟩
  exact (claim_C2_amended oracleOK New rfl (Or.inl rfl)).2

/-- C10: a fresh builder has no error, no last request or response, empty
headers, cookies and proxy, and a zeroed response snapshot (status 0,
empty headers, empty body, content length 0), as read by the accessors. -/
theorem claim_C10 :
    Error New = none ∧ Request New = none ∧ Response New = none ∧
    New.headers = [] ∧ New.cookies = [] ∧ New.proxy = none ∧
    RespStatus New = 0 ∧ RespHeaders New = [] ∧ RawRespBody New = [] ∧
    RespLength New = 0 :=
  ⟨rfl, rfl, rfl, rfl, rfl, rfl, rfl, rfl, rfl, rfl⟩

/-- C3: the response snapshot is updated only by a fully successful
execution; on a transport failure the snapshot and lastResponse are
unchanged; on a body-read failure the snapshot is unchanged but
lastResponse has already been updated to the new response; on full
success the snapshot takes the new response's data. -/
theorem claim_C3 (o : Oracle) (cc : CrocClient) :
    ((End o cc).ret.isSome = true → snapshot (End o cc).state = snapshot cc) ∧
    (∀ req e, cc.err = none → makeRequest o cc = .ok req → o.send cc.proxy req = .fail e →
      snapshot (End o cc).state = snapshot cc ∧
      (End o cc).state.lastResponse = cc.lastResponse) ∧
    (∀ req resp e, cc.err = none → makeRequest o cc = .ok req →
      o.send cc.proxy req = .ok resp → resp.bodyStream = .fail e →
      snapshot (End o cc).state = snapshot cc ∧
      (End o cc).state.lastResponse = some resp) ∧
    (∀ req resp body, cc.err = none → makeRequest o cc = .ok req →
      o.send cc.proxy req = .ok resp → resp.bodyStream = .ok body →
      snapshot (End o cc).state = ⟨resp.statusCode, resp.header, body, resp.contentLength⟩ ∧
      (End o cc).ret = none) := by
  refine ⟨?_, ?_, ?_, ?_⟩
  · intro hfail
    cases hs : cc.err with
    | some e =>
      rw [End_sticky o cc e hs]
    | none =>
      cases hm : makeRequest o cc with
      | fail e =>
        rw [End_makeFail o cc e hs hm]
        rfl
      | ok req =>
        cases hsend : o.send cc.proxy req with
        | fail e =>
          rw [End_sendFail o cc req e hs hm hsend]
          rfl
        | ok resp =>
          cases hb : resp.bodyStream with
          | fail e =>
            rw [End_readFail o cc req resp e hs hm hsend hb]
            rfl
          | ok body =>
            rw [End_success o cc req resp body hs hm hsend hb] at hfail
            simp at hfail
  · intro req e h0 h1 h2
    rw [End_sendFail o cc req e h0 h1 h2]
    exact ⟨rfl, rfl⟩
  · intro req resp e h0 h1 h2 h3
    rw [End_readFail o cc req resp e h0 h1 h2 h3]
    exact ⟨rfl, rfl⟩
  · intro req resp body h0 h1 h2 h3
    rw [End_success o cc req resp body h0 h1 h2 h3]
    exact ⟨rfl, rfl⟩

/-- C3 witness: a send failure, a read failure and a success against a
fresh builder after Get("http://x"). -/
theorem claim_C3_witness :
    (snapshot (End oracleSendFail (Get New ("http://x"))).state =
      snapshot (Get New ("http://x")) ∧
     (End oracleSendFail (Get New ("http://x"))).state.lastResponse = none) ∧
    (snapshot (End oracleReadFail (Get New ("http://x"))).state =
      snapshot (Get New ("http://x")) ∧
     (End oracleReadFail (Get New ("http://x"))).state.lastResponse =
      some ⟨200, [], -1, .fail ("unexpected EOF")⟩) ∧
    (snapshot (End oracleOK (Get New ("http://x"))).state = ⟨200, [], [97, 98, 99], 3⟩ ∧
     (End oracleOK (Get New ("http://x"))).ret = none) := by
  refine ⟨?_, ?_, ?_⟩
  · exact (claim_C3 oracleSendFail (Get New ("http://x"))).2.1 _ ("connection refused") rfl rfl rfl
  · exact (claim_C3 oracleReadFail (Get New ("http://x"))).2.2.1 _ _ ("unexpected EOF") rfl rfl rfl rfl
  · exact (claim_C3 oracleOK (Get New ("http://x"))).2.2.2 _ _ [97, 98, 99] rfl rfl rfl rfl

/-- C4: each method-selection call clears method, url, headers, basicAuth,
body and the sticky error, sets the new method and url, and leaves the
pending cookie list and the stored proxy unchanged, so preserved cookies
appear on the next assembled request. -/
theorem claim_C4 (o : Oracle) (cc : CrocClient) (u : String) :
    methodReset o cc (Get cc u) ("GET") u ∧
    methodReset o cc (Post cc u) ("POST") u ∧
    methodReset o cc (Put cc u) ("PUT") u ∧
    methodReset o cc (Delete cc u) ("DELETE") u ∧
    methodReset o cc (Head cc u) ("HEAD") u ∧
    methodReset o cc (Patch cc u) ("PATCH") u ∧
    methodReset o cc (Options cc u) ("OPTIONS") u := by
  have base : ∀ m : String,
      methodReset o cc { ClearRequestData cc with method := m, url := u, err := none } m u := by
    intro m
    refine ⟨rfl, rfl, rfl, rfl, rfl, rfl, rfl, rfl, ?_⟩
    intro req hreq
    rw [makeRequest_ok_eq o _ req hreq]
    rfl
  exact ⟨base ("GET"), base ("POST"), base ("PUT"), base ("DELETE"), base ("HEAD"),
    base ("PATCH"), base ("OPTIONS")⟩

/-- C4 witness: cookies added before Get() still ride on the request that
Get() then End() would assemble, while the old header is gone. -/
theorem claim_C4_witness :
    (Get (AddCookies (SetHeader New ("X-Old") ("1")) [⟨"sid", "42"⟩]) ("http://y")).headers = [] ∧
    ({ method := "GET", url := "http://y", header := [], body := [], auth := none,
       cookies := [⟨"sid", "42"⟩] } : ModelRequest).cookies =
      (AddCookies (SetHeader New ("X-Old") ("1")) [⟨"sid", "42"⟩]).cookies := by
  constructor
  · exact ((claim_C4 oracleOK (AddCookies (SetHeader New ("X-Old") ("1")) [⟨"sid", "42"⟩]) ("http://y")).1).2.2.1
  · exact ((claim_C4 oracleOK (AddCookies (SetHeader New ("X-Old") ("1")) [⟨"sid", "42"⟩]) ("http://y")).1).2.2.2.2.2.2.2.2 _ rfl

/-- C5: SetHeader(k,v) followed by AppendHeader(k,v2).. yields exactly
the list [v, v2, ..] for key k on the assembled request, and a second
SetHeader(k,v2) after SetHeader(k,v1) yields exactly [v2]. -/
theorem claim_C5 (o : Oracle) (cc : CrocClient) (k v v1 v2 : String) (vs : List String)
    (hwf : WFHeader cc.headers) :
    (∀ req, makeRequest o (appendMany (SetHeader cc k v) k vs) = .ok req →
      headerValues req.header k = v :: vs) ∧
    (∀ req, makeRequest o (SetHeader (SetHeader cc k v1) k v2) = .ok req →
      headerValues req.header k = [v2]) := by
  constructor
  · intro req hreq
    rw [makeRequest_ok_eq o _ req hreq]
    show headerValues (copyHeaders (appendMany (SetHeader cc k v) k vs).headers) k = v :: vs
    have hh : (appendMany (SetHeader cc k v) k vs).headers =
        addAll (headerSet cc.headers k v) k vs := by
      rw [appendMany_eq]
      rfl
    rw [hh]
    have hwf1 : WFHeader (addAll (headerSet cc.headers k v) k vs) :=
      WF_addAll _ _ _ (WF_headerSet _ _ _ hwf)
    unfold headerValues
    rw [lookup_copyHeaders _ hwf1, lookup_addAll, if_pos rfl]
    unfold headerSet
    rw [lookup_setRaw, if_pos rfl]
    rfl
  · intro req hreq
    rw [makeRequest_ok_eq o _ req hreq]
    show headerValues (copyHeaders (SetHeader (SetHeader cc k v1) k v2).headers) k = [v2]
    have hh : (SetHeader (SetHeader cc k v1) k v2).headers =
        headerSet (headerSet cc.headers k v1) k v2 := rfl
    rw [hh]
    have hwf2 : WFHeader (headerSet (headerSet cc.headers k v1) k v2) :=
      WF_headerSet _ _ _ (WF_headerSet _ _ _ hwf)
    unfold headerValues
    rw [lookup_copyHeaders _ hwf2]
    unfold headerSet
    rw [lookup_setRaw, if_pos rfl]

/-- C5 witness: set then append on one key, and set twice on one key,
observed through the assembled request with canonical key lookup. -/
theorem claim_C5_witness :
    headerValues [("Content-Type", ["a", "b"])] ("content-type") = ["a", "b"] ∧
    headerValues [("Content-Type", ["c"])] ("content-type") = ["c"] := by
  constructor
  · exact (claim_C5 oracleOK (Get New ("http://x")) ("content-type") ("a") ("z") ("c") ["b"]
      ⟨fun p hp => absurd hp (List.not_mem_nil p), List.nodup_nil⟩).1 _ rfl
  · exact (claim_C5 oracleOK (Get New ("http://x")) ("content-type") ("a") ("z") ("c") ["b"]
      ⟨fun p hp => absurd hp (List.not_mem_nil p), List.nodup_nil⟩).2 _ rfl

/-- C6: the code contradicts this claim and Error()'s own doc comment
("returns THE FIRST error"): a second failing Proxy call overwrites the
pending sticky error with the later one, and SetHeader keeps doing real
work (mutating the header map) while an error is pending. -/
theorem claim_C6_code_bug :
    (Proxy oracleParseFail New ("bad1")).err = some (.parse ("e1")) ∧
    (Proxy oracleParseFail (Proxy oracleParseFail New ("bad1")) ("bad2")).err =
      some (.parse ("e2")) ∧
    Err.parse ("e1") ≠ Err.parse ("e2") ∧
    (SetHeader (Proxy oracleParseFail New ("bad1")) ("X-A") ("1")).headers ≠
      (Proxy oracleParseFail New ("bad1")).headers := by
  refine ⟨rfl, rfl, by decide, by decide⟩

/-- C7: the assembled request carries basic-auth credentials iff the
stored credentials differ from the zero value, and SetBasicAuth with two
empty strings leaves a zero-credential builder exactly as it was — the
state is indistinguishable from never having called SetBasicAuth. -/
theorem claim_C7 (o : Oracle) (cc : CrocClient) :
    (∀ req, makeRequest o cc = .ok req →
      (req.auth.isSome = true ↔ cc.basicAuth ≠ (⟨"", ""⟩ : BasicAuth)) ∧
      (∀ ba, req.auth = some ba → ba = cc.basicAuth)) ∧
    (cc.basicAuth = (⟨"", ""⟩ : BasicAuth) → SetBasicAuth cc ("") ("") = cc) ∧
    (SetBasicAuth cc ("") ("")).basicAuth = New.basicAuth := by
  refine ⟨?_, ?_, rfl⟩
  · intro req hreq
    rw [makeRequest_ok_eq o cc req hreq]
    by_cases hba : cc.basicAuth = (⟨"", ""⟩ : BasicAuth)
    · simp [hba]
    · simp [hba]
  · intro hz
    unfold SetBasicAuth
    rw [← hz]

/-- C7 witness: credentials set to ("u","p") appear on the assembled
request, and SetBasicAuth("","") on a fresh builder is the identity. -/
theorem claim_C7_witness :
    (({ method := "GET", url := "http://x", header := [], body := [],
        auth := some ⟨"u", "p"⟩, cookies := [] } : ModelRequest).auth.isSome = true ↔
      (SetBasicAuth (Get New ("http://x")) ("u") ("p")).basicAuth ≠ (⟨"", ""⟩ : BasicAuth)) ∧
    SetBasicAuth New ("") ("") = New := by
  constructor
  · exact ((claim_C7 oracleOK (SetBasicAuth (Get New ("http://x")) ("u") ("p"))).1 _ rfl).1
  · exact (claim_C7 oracleOK New).2.1 rfl

/-- C8: Do(req) sends the given request with the currently configured
proxy, leaves lastRequest, lastResponse, the sticky error and the whole
response snapshot untouched, returns (absent, absent, error) on a send
failure, and returns (response, absent, error) on a body-read failure. -/
theorem claim_C8 (o : Oracle) (cc : CrocClient) (req : ModelRequest) :
    (Do o cc req).state.lastRequest = cc.lastRequest ∧
    (Do o cc req).state.lastResponse = cc.lastResponse ∧
    (Do o cc req).state.err = cc.err ∧
    snapshot (Do o cc req).state = snapshot cc ∧
    (Do o cc req).state.transportProxy = cc.proxy ∧
    (∀ e, o.send cc.proxy req = .fail e →
      Do o cc req = ⟨{ cc with transportProxy := cc.proxy }, none, none, some (.transport e)⟩) ∧
    (∀ resp e, o.send cc.proxy req = .ok resp → resp.bodyStream = .fail e →
      Do o cc req = ⟨{ cc with transportProxy := cc.proxy }, some resp, none, some (.read e)⟩) := by
  cases hsend : o.send cc.proxy req with
  | fail e =>
    have hDo : Do o cc req =
        ⟨{ cc with transportProxy := cc.proxy }, none, none, some (.transport e)⟩ := by
      unfold Do
      rw [hsend]
    rw [hDo]
    refine ⟨rfl, rfl, rfl, rfl, rfl, ?_, ?_⟩
    · intro e' he'
      cases he'
      rfl
    · intro resp' e' hr _
      exact SendResult.noConfusion hr
  | ok resp =>
    cases hb : resp.bodyStream with
    | fail e =>
      have hDo : Do o cc req =
          ⟨{ cc with transportProxy := cc.proxy }, some resp, none, some (.read e)⟩ := by
        unfold Do
        rw [hsend]
        simp only [hb]
      rw [hDo]
      refine ⟨rfl, rfl, rfl, rfl, rfl, ?_, ?_⟩
      · intro e' he'
        exact SendResult.noConfusion he'
      · intro resp' e' hr hb'
        cases hr
        rw [hb] at hb'
        cases hb'
        rfl
    | ok body =>
      have hDo : Do o cc req =
          ⟨{ cc with transportProxy := cc.proxy }, some resp, some body, none⟩ := by
        unfold Do
        rw [hsend]
        simp only [hb]
      rw [hDo]
      refine ⟨rfl, rfl, rfl, rfl, rfl, ?_, ?_⟩
      · intro e' he'
        exact SendResult.noConfusion he'
      · intro resp' e' hr hb'
        cases hr
        rw [hb] at hb'
        exact ReadResult.noConfusion hb'

/-- C8 witness: against the read-failing stub, Do returns the response
with no body and the read error, and the builder's stored response is
untouched. -/
theorem claim_C8_witness :
    Do oracleReadFail New reqW =
      ⟨{ New with transportProxy := none }, some ⟨200, [], -1, .fail ("unexpected EOF")⟩,
        none, some (.read ("unexpected EOF"))⟩ ∧
    (Do oracleReadFail New reqW).state.lastResponse = New.lastResponse := by
  constructor
  · exact (claim_C8 oracleReadFail New reqW).2.2.2.2.2.2 _ ("unexpected EOF") rfl rfl
  · exact (claim_C8 oracleReadFail New reqW).2.1

/-- C9 (amended): the method-selection calls leave lastRequest and
lastResponse unchanged (they do not overwrite them); End() overwrites
lastRequest exactly when assembly succeeds and overwrites lastResponse
exactly when the transport returns a response, leaving both untouched on
the sticky-error and assembly-failure paths. -/
theorem claim_C9_amended (o : Oracle) (cc : CrocClient) (u : String) :
    ((Get cc u).lastRequest = cc.lastRequest ∧ (Get cc u).lastResponse = cc.lastResponse) ∧
    ((Post cc u).lastRequest = cc.lastRequest ∧ (Post cc u).lastResponse = cc.lastResponse) ∧
    ((Put cc u).lastRequest = cc.lastRequest ∧ (Put cc u).lastResponse = cc.lastResponse) ∧
    ((Delete cc u).lastRequest = cc.lastRequest ∧ (Delete cc u).lastResponse = cc.lastResponse) ∧
    ((Head cc u).lastRequest = cc.lastRequest ∧ (Head cc u).lastResponse = cc.lastResponse) ∧
    ((Patch cc u).lastRequest = cc.lastRequest ∧ (Patch cc u).lastResponse = cc.lastResponse) ∧
    ((Options cc u).lastRequest = cc.lastRequest ∧ (Options cc u).lastResponse = cc.lastResponse) ∧
    (∀ e, cc.err = some e →
      (End o cc).state.lastRequest = cc.lastRequest ∧
      (End o cc).state.lastResponse = cc.lastResponse) ∧
    (∀ e, cc.err = none → makeRequest o cc = .fail e →
      (End o cc).state.lastRequest = cc.lastRequest ∧
      (End o cc).state.lastResponse = cc.lastResponse) ∧
    (∀ req, cc.err = none → makeRequest o cc = .ok req →
      (End o cc).state.lastRequest = some req) ∧
    (∀ req e, cc.err = none → makeRequest o cc = .ok req → o.send cc.proxy req = .fail e →
      (End o cc).state.lastResponse = cc.lastResponse) ∧
    (∀ req resp, cc.err = none → makeRequest o cc = .ok req → o.send cc.proxy req = .ok resp →
      (End o cc).state.lastResponse = some resp) := by
  refine ⟨⟨rfl, rfl⟩, ⟨rfl, rfl⟩, ⟨rfl, rfl⟩, ⟨rfl, rfl⟩, ⟨rfl, rfl⟩, ⟨rfl, rfl⟩, ⟨rfl, rfl⟩,
    ?_, ?_, ?_, ?_, ?_⟩
  · intro e he
    rw [End_sticky o cc e he]
    exact ⟨rfl, rfl⟩
  · intro e h0 h1
    rw [End_makeFail o cc e h0 h1]
    exact ⟨rfl, rfl⟩
  · intro req h0 h1
    cases hsend : o.send cc.proxy req with
    | fail e =>
      rw [End_sendFail o cc req e h0 h1 hsend]
    | ok resp =>
      cases hb : resp.bodyStream with
      | fail e =>
        rw [End_readFail o cc req resp e h0 h1 hsend hb]
      | ok body =>
        rw [End_success o cc req resp body h0 h1 hsend hb]
  · intro req e h0 h1 h2
    rw [End_sendFail o cc req e h0 h1 h2]
  · intro req resp h0 h1 h2
    cases hb : resp.bodyStream with
    | fail e =>
      rw [End_readFail o cc req resp e h0 h1 h2 hb]
    | ok body =>
      rw [End_success o cc req resp body h0 h1 h2 hb]

/-- C9 counterexample: after a successful End(), a Get() call leaves both
lastRequest and lastResponse holding the prior instances — the claim says
every method-selection call overwrites them. -/
theorem claim_C9_counterexample :
    (End oracleOK (Get New ("http://x"))).state.lastResponse =
      some ⟨200, [], 3, .ok [97, 98, 99]⟩ ∧
    (Get (End oracleOK (Get New ("http://x"))).state ("http://y")).lastResponse =
      some ⟨200, [], 3, .ok [97, 98, 99]⟩ ∧
    (Get (End oracleOK (Get New ("http://x"))).state ("http://y")).lastRequest =
      (End oracleOK (Get New ("http://x"))).state.lastRequest ∧
    (Get (End oracleOK (Get New ("http://x"))).state ("http://y")).lastRequest.isSome = true :=
  ⟨rfl, rfl, rfl, rfl⟩

/-- C9 witness: End() stores the assembled request on success, and leaves
lastResponse alone on a transport failure. -/
theorem claim_C9_witness :
    (End oracleOK (Get New ("http://x"))).state.lastRequest = some reqW ∧
    (End oracleSendFail (Get New ("http://x"))).state.lastResponse = none := by
  constructor
  · exact (claim_C9_amended oracleOK (Get New ("http://x")) ("")).2.2.2.2.2.2.2.2.2.1 _ rfl rfl
  · exact (claim_C9_amended oracleSendFail (Get New ("http://x")) ("")).2.2.2.2.2.2.2.2.2.2.1 _
      ("connection refused") rfl rfl rfl

end Croc
